import Mathlib

/-!
Shallow embedding of `src/reinforcement/agent.py` (class `AgentQ`), a tabular
SARSA/Q-learning agent.  Python floats are modelled as rationals (`ℚ`), the
Python dict `self.Q` as an association list with insert-at-front / first-match
lookup (which has exactly the overwrite semantics of a dict), and the two
pseudo-random streams (`np.random.random()` and `random.choice`) as oracle
streams threaded through the computation by draw counters.
-/

set_option autoImplicit false

namespace AgentQ

/-- The four cardinal actions of `reinforcement.joc.Action`
(named in `AgentQ._action_to_symbol`). -/
inductive Action where
  | MOVE_LEFT
  | MOVE_RIGHT
  | MOVE_UP
  | MOVE_DOWN
deriving DecidableEq, Repr

/-- Modelled from the spec: `environment.actions`, the environment's ordered,
fixed enumeration of the legal action set (§6); `reinforcement/joc.py` is not
part of the analysed sources.  The concrete order is irrelevant to every claim;
it only has to be fixed. -/
def actionsList : List Action :=
  [Action.MOVE_LEFT, Action.MOVE_RIGHT, Action.MOVE_UP, Action.MOVE_DOWN]

/-- Terminal-status signal of `reinforcement.joc.Status`.  `WIN`/`LOSE` appear
at `agent.py:289-292`; the non-terminal name is modelled from the spec
(`IN_PROGRESS`, §6). -/
inductive Status where
  | WIN
  | LOSE
  | IN_PROGRESS
deriving DecidableEq, Repr

/-- A Python value used as a state / table key by the agent: either a numpy
ndarray (kept as its rows), a tuple of ints, or some other plain hashable
key. -/
inductive PyState where
  | ndarray (rows : List (List Int))
  | tup (elems : List Int)
  | intKey (n : Int)
deriving DecidableEq, Repr

/-- The key normalisation at the head of `AgentQ.q` (agent.py:39-40):
`if type(state) is np.ndarray: state = tuple(state.flatten())`; any other
state is used unchanged. -/
def normalizeState : PyState → PyState
  | PyState.ndarray rows => PyState.tup rows.flatten
  | s => s

/-- `self.Q`: dict keyed by (state, action) with float values (agent.py:35).
Insert prepends; lookup takes the first match, so later inserts shadow
earlier ones exactly like dict assignment. -/
abbrev QTable := List ((PyState × Action) × ℚ)

/-- Dict lookup: `self.Q[(state, action)]` / `(state, action) in self.Q`. -/
def qGet (Q : QTable) (k : PyState × Action) : Option ℚ :=
  match Q with
  | [] => none
  | (k', v) :: rest => if k' = k then some v else qGet rest k

/-- Lookup with the implicit-zero default used throughout `AgentQ.q`. -/
def qGetD (Q : QTable) (k : PyState × Action) : ℚ :=
  (qGet Q k).getD 0

/-- Dict assignment `self.Q[(state, action)] = v`. -/
def qSet (Q : QTable) (k : PyState × Action) (v : ℚ) : QTable :=
  (k, v) :: Q

/-- The "ensure value exists" step (agent.py:254-259 and 274-280):
`if (s, a) not in self.Q: self.Q[(s, a)] = 0.0`. -/
def ensureQ (Q : QTable) (k : PyState × Action) : QTable :=
  if (qGet Q k).isSome then Q else qSet Q k 0

/-- `AgentQ.q(state)` (agent.py:37-49): normalise an ndarray state, then build
the vector of stored values (0 where absent), one per action in
`environment.actions` order. -/
def qvals (Q : QTable) (state : PyState) : List ℚ :=
  actionsList.map (fun a => qGetD Q (normalizeState state, a))

/-- `np.max` of a (nonempty) value vector. -/
def listMax : List ℚ → ℚ
  | [] => 0
  | x :: xs => xs.foldl max x

/-- `np.nonzero(q == np.max(q))[0]` (agent.py:62-64, 83-85): the indices,
in increasing order, whose value equals the maximum. -/
def maxIndices (q : List ℚ) : List Nat :=
  (List.range q.length).filter (fun i => q.getD i 0 = listMax q)

/-- `random.choice(actions)` over the maximizer indices, with `c` the oracle
draw for this choice: a uniform pick is modelled as an arbitrary position
taken modulo the list length. -/
def predictIdx (Q : QTable) (state : PyState) (c : Nat) : Nat :=
  let idxs := maxIndices (qvals Q state)
  idxs.getD (c % idxs.length) 0

/-- `AgentQ.predict` (agent.py:71-86): greedy selection, returning
`self.environment.actions[random.choice(actions)]`. -/
def predict (Q : QTable) (state : PyState) (c : Nat) : Action :=
  actionsList.getD (predictIdx Q state c) Action.MOVE_LEFT

/-- A value returned to the caller by a policy method: either a raw numpy
index or an `Action` member. -/
inductive PyVal where
  | idx (n : Nat)
  | act (a : Action)
deriving DecidableEq, Repr

/-- `AgentQ.actua` (agent.py:51-66): computes the same maximizer indices as
`predict` but returns `random.choice(actions)` itself — the raw index, not
`self.environment.actions[...]`. -/
def actua (Q : QTable) (state : PyState) (c : Nat) : PyVal :=
  PyVal.idx (predictIdx Q state c)

/-- `AgentQ.predict`'s return, viewed as a Python value (an `Action`). -/
def predictVal (Q : QTable) (state : PyState) (c : Nat) : PyVal :=
  PyVal.act (predict Q state c)

/-- The external environment collaborator (spec §6): `reset(start) -> state`
and the stateful `step`/`_aplica(action) -> (next_state, reward, status)`,
modelled functionally on the state it last returned (the agent's `state`
variable tracks the environment's internal state in lockstep). -/
structure EnvModel where
  reset : Nat × Nat → PyState
  aplica : PyState × Action → PyState × ℚ × Status

/-- The two process-wide pseudo-random streams: `urand k` is the `k`-th
`np.random.random()` draw, `choice k` the `k`-th `random.choice` draw
(taken modulo the length of the list drawn from). -/
structure Oracle where
  urand : Nat → ℚ
  choice : Nat → Nat

/-- The epsilon-greedy action choice (agent.py:248-251 and 269-272):
with the next `np.random.random()` draw below `exploration_rate`, a uniform
`random.choice(self.environment.actions)`; otherwise `self.predict(state)`.
Returns the action and the advanced draw counters. -/
def chooseAction (Q : QTable) (exploration_rate : ℚ) (s : PyState) (o : Oracle)
    (nu nc : Nat) : Action × Nat × Nat :=
  if o.urand nu < exploration_rate then
    (actionsList.getD (o.choice nc % actionsList.length) Action.MOVE_LEFT, nu + 1, nc + 1)
  else
    (predict Q s (o.choice nc), nu + 1, nc + 1)

/-- One table transaction of the inner loop (agent.py:274-286): ensure
`(next_state, next_action)` exists, then
`Q[(s,a)] += learning_rate * (reward + discount * Q[(s',a')] - Q[(s,a)])`,
with both reads performed on the ensured dict. -/
def sarsaStep (Q : QTable) (s : PyState) (a : Action) (r : ℚ) (s' : PyState)
    (a' : Action) (discount learning_rate : ℚ) : QTable :=
  qSet (ensureQ Q (s', a')) (s, a)
    (qGetD (ensureQ Q (s', a')) (s, a) + learning_rate *
      (r + discount * qGetD (ensureQ Q (s', a')) (s', a') -
        qGetD (ensureQ Q (s', a')) (s, a)))

/-- Abnormal outcomes of the embedded `train`. -/
inductive TrainError where
  /-- the `while True` episode loop did not exit within the modelling fuel -/
  | fuelOut
  /-- Python `UnboundLocalError`: a local read before it was ever assigned -/
  | unboundLocal
deriving DecidableEq, Repr

/-- The `while True` episode loop (agent.py:261-299), with fuel to keep the
model total.  Yields the table, the (global) cumulative reward, the terminal
status and the advanced draw counters. -/
def episodeLoop (env : EnvModel) (discount learning_rate exploration_rate : ℚ)
    (o : Oracle) :
    Nat → PyState → Action → QTable → ℚ → Nat → Nat →
      Except TrainError (QTable × ℚ × Status × Nat × Nat)
  | 0, _, _, _, _, _, _ => Except.error TrainError.fuelOut
  | fuel + 1, state, action, Q, cum, nu, nc =>
    let nrs := env.aplica (state, action)
    let next_state := nrs.1
    let reward := nrs.2.1
    let status := nrs.2.2
    let cum' := cum + reward
    let anc := chooseAction Q exploration_rate next_state o nu nc
    let next_action := anc.1
    let Q' := sarsaStep Q state action reward next_state next_action discount learning_rate
    if status = Status.WIN ∨ status = Status.LOSE then
      Except.ok (Q', cum', status, anc.2.1, anc.2.2)
    else
      episodeLoop env discount learning_rate exploration_rate o fuel
        next_state next_action Q' cum' anc.2.1 anc.2.2

/-- One episode (agent.py:243-299): reset, epsilon-greedy first action,
ensure its entry, then the step loop. -/
def runEpisode (env : EnvModel) (discount learning_rate exploration_rate : ℚ)
    (o : Oracle) (fuel : Nat) (start : Nat × Nat) (Q : QTable) (cum : ℚ)
    (nu nc : Nat) : Except TrainError (QTable × ℚ × Status × Nat × Nat) :=
  let state := env.reset start
  let anc := chooseAction Q exploration_rate state o nu nc
  let Q1 := ensureQ Q (state, anc.1)
  episodeLoop env discount learning_rate exploration_rate o fuel state anc.1 Q1
    cum anc.2.1 anc.2.2

/-- The 8×8 maze hard-coded inside `train` (agent.py:225-236);
0 = free, 1 = occupied. -/
def mazeGrid : List (List Nat) :=
  [[0, 1, 0, 0, 0, 0, 0, 0],
   [0, 1, 0, 1, 0, 1, 0, 0],
   [0, 1, 0, 1, 1, 0, 1, 0],
   [0, 1, 0, 1, 0, 0, 0, 0],
   [0, 1, 0, 1, 0, 1, 0, 0],
   [0, 0, 0, 1, 0, 1, 1, 1],
   [0, 1, 1, 0, 0, 0, 0, 0],
   [0, 1, 0, 0, 0, 1, 0, 0]]

/-- `maze[y, x]`. -/
def mazeAt (y x : Nat) : Nat := (mazeGrid.getD y []).getD x 1

/-- One advance of the training-start cursor (the if/else ladder at
agent.py:311-322, with `np.sqrt(maze.size) - 1 = 7`): row-major, wrapping
`x` at 7 and wrapping `y` back to 0 after the last row. -/
def advanceCell : Nat × Nat → Nat × Nat
  | (x, y) =>
    if y < 7 then (if x < 7 then (x + 1, y) else (0, y + 1))
    else (if x < 7 then (x + 1, y) else (0, 0))

/-- The `while maze[y, x] == 1` skip loop (agent.py:323-335), fuelled to
cross the whole 8×8 grid. -/
def skipOccupied : Nat → Nat × Nat → Nat × Nat
  | 0, p => p
  | fuel + 1, p => if mazeAt p.2 p.1 = 1 then skipOccupied fuel (advanceCell p) else p

/-- Full cursor update after an episode: one advance, then skip occupied
cells. -/
def cursorNext (p : Nat × Nat) : Nat × Nat := skipOccupied 64 (advanceCell p)

/-- The per-episode constants of `train` (agent.py:220-221). -/
def min_exploration_rate : ℚ := 1 / 100

/-- agent.py:221. -/
def decay_rate : ℚ := 9975 / 10000

/-- The exploration decay applied after each episode (agent.py:302). -/
def decay (e : ℚ) : ℚ := max min_exploration_rate (e * decay_rate)

/-- The mutable locals of `train` that survive from one episode of the `for`
loop to the next. -/
structure TrainState where
  Q : QTable
  cum : ℚ
  history : List ℚ
  exploration_rate : ℚ
  xy : Nat × Nat
  nu : Nat
  nc : Nat
deriving Repr

/-- One iteration of the `for episode in range(1, episodes + 1)` body
(agent.py:241-335): run an episode, append the (never reset) cumulative
reward to the history, decay the exploration rate, advance the start
cursor. -/
def trainEpisode (env : EnvModel) (discount learning_rate : ℚ) (o : Oracle)
    (fuel : Nat) (ts : TrainState) : Except TrainError TrainState :=
  match runEpisode env discount learning_rate ts.exploration_rate o fuel ts.xy
      ts.Q ts.cum ts.nu ts.nc with
  | Except.error e => Except.error e
  | Except.ok (Q, cum, _status, nu, nc) =>
    Except.ok { Q := Q, cum := cum, history := ts.history ++ [cum],
                exploration_rate := decay ts.exploration_rate,
                xy := cursorNext ts.xy, nu := nu, nc := nc }

/-- The `for` loop of `train`, by remaining episode count. -/
def trainGo (env : EnvModel) (discount learning_rate : ℚ) (o : Oracle)
    (fuel : Nat) : Nat → TrainState → Except TrainError TrainState
  | 0, ts => Except.ok ts
  | n + 1, ts =>
    match trainEpisode env discount learning_rate o fuel ts with
    | Except.error e => Except.error e
    | Except.ok ts' => trainGo env discount learning_rate o fuel n ts'

/-- The locals of `train` as they stand when the `for` loop is reached
(agent.py:216-238): empty history, zero cumulative reward, cursor at
`(0, 0)`; `Q0` is `self.Q` (empty at construction, agent.py:35). -/
def initialState (Q0 : QTable) (exploration_rate : ℚ) : TrainState :=
  { Q := Q0, cum := 0, history := [], exploration_rate := exploration_rate,
    xy := (0, 0), nu := 0, nc := 0 }

set_option linter.unusedVariables false in
/-- `AgentQ.train` (agent.py:192-339).  `stop_at_convergence` is in the
Python signature but the body never reads it.  With `episodes = 0` the `for`
loop never binds `episode`, so the `logging.info` at agent.py:337 raises
`UnboundLocalError`; otherwise the returned triple is
`(cumulative_reward_history, win_history, episode)`, where `win_history`
is never appended to and the final `episode` equals `episodes`. -/
def train (env : EnvModel) (o : Oracle) (fuel : Nat) (Q0 : QTable)
    (discount exploration_rate learning_rate : ℚ) (episodes : Nat)
    (stop_at_convergence : Bool) :
    Except TrainError (List ℚ × List Status × Nat) :=
  match trainGo env discount learning_rate o fuel episodes
      (initialState Q0 exploration_rate) with
  | Except.error e => Except.error e
  | Except.ok ts =>
    if episodes = 0 then Except.error TrainError.unboundLocal
    else Except.ok (ts.history, [], episodes)

/-! Concrete instances used by the spec scenarios. -/

/-- A one-step environment: every `step` yields reward 1 and terminates with
`WIN` immediately, from every state (Scenario D's "starting transition is
immediately WIN"). -/
def winEnv : EnvModel :=
  { reset := fun p => PyState.tup [Int.ofNat p.1, Int.ofNat p.2],
    aplica := fun _ => (PyState.tup [9, 9], 1, Status.WIN) }

/-- A deterministic random source: every `np.random.random()` draw is 0 and
every `random.choice` takes the first element. -/
def zeroOracle : Oracle := { urand := fun _ => 0, choice := fun _ => 0 }

/-- The state `s0` of spec Scenarios B and C. -/
def sB : PyState := PyState.tup [0, 0]

/-- Scenario B table: `set((s0, UP), 0.0)` then `set((s0, DOWN), 5.0)`. -/
def QB : QTable := qSet (qSet [] (sB, Action.MOVE_UP) 0) (sB, Action.MOVE_DOWN) 5

/-- Scenario C table: `set((s0, UP), 3.0)` and `set((s0, DOWN), 3.0)`, all
other actions absent. -/
def QC : QTable := qSet (qSet [] (sB, Action.MOVE_UP) 3) (sB, Action.MOVE_DOWN) 3

/-- The `train` locals after episode 1 of Scenario D's run (`winEnv`, discount
9/10, learning rate 1/2, initial exploration rate 0, `zeroOracle`). -/
def tsD : TrainState :=
  { Q := [((PyState.tup [0, 0], Action.MOVE_LEFT), 1/2),
          ((PyState.tup [9, 9], Action.MOVE_LEFT), 0),
          ((PyState.tup [0, 0], Action.MOVE_LEFT), 0)],
    cum := 1, history := [1], exploration_rate := 1/100, xy := (2, 0),
    nu := 2, nc := 2 }

/-! Basic table lemmas. -/

theorem qGet_cons (k k' : PyState × Action) (v : ℚ) (Q : QTable) :
    qGet ((k, v) :: Q) k' = if k = k' then some v else qGet Q k' := rfl

theorem qGet_qSet_self (Q : QTable) (k : PyState × Action) (v : ℚ) :
    qGet (qSet Q k v) k = some v := by
  simp [qGet, qSet]

theorem qGetD_qSet_self (Q : QTable) (k : PyState × Action) (v : ℚ) :
    qGetD (qSet Q k v) k = v := by
  unfold qGetD
  rw [qGet_qSet_self]
  rfl

/-- The "ensure" step never changes any estimate: it only materialises the
implicit-zero default. -/
theorem qGetD_ensureQ (Q : QTable) (k k' : PyState × Action) :
    qGetD (ensureQ Q k) k' = qGetD Q k' := by
  unfold ensureQ
  split
  · rfl
  · rename_i h
    show qGetD ((k, 0) :: Q) k' = qGetD Q k'
    unfold qGetD
    rw [qGet_cons]
    by_cases hk : k = k'
    · subst hk
      cases hq : qGet Q k with
      | none => simp
      | some v => rw [hq] at h; simp at h
    · rw [if_neg hk]

/-! Greedy-selection lemmas. -/

theorem foldl_max_mem (xs : List ℚ) (x : ℚ) :
    xs.foldl max x = x ∨ xs.foldl max x ∈ xs := by
  induction xs generalizing x with
  | nil => left; rfl
  | cons y ys ih =>
    rw [List.foldl_cons]
    rcases ih (max x y) with h | h
    · rcases max_choice x y with hxy | hxy
      · left; rw [h, hxy]
      · right; rw [h, hxy]; exact List.mem_cons_self _ _
    · right; exact List.mem_cons_of_mem _ h

theorem listMax_mem (l : List ℚ) (h : l ≠ []) : listMax l ∈ l := by
  cases l with
  | nil => exact absurd rfl h
  | cons x xs =>
    show xs.foldl max x ∈ x :: xs
    rcases foldl_max_mem xs x with h1 | h1
    · rw [h1]; exact List.mem_cons_self _ _
    · exact List.mem_cons_of_mem _ h1

theorem mem_maxIndices (q : List ℚ) (i : Nat) :
    i ∈ maxIndices q ↔ i < q.length ∧ q.getD i 0 = listMax q := by
  simp [maxIndices, List.mem_filter, List.mem_range]

theorem maxIndices_ne_nil (q : List ℚ) (h : q ≠ []) : maxIndices q ≠ [] := by
  have hmem := listMax_mem q h
  rw [List.mem_iff_getElem] at hmem
  obtain ⟨i, hi, hq⟩ := hmem
  intro hnil
  have hin : i ∈ maxIndices q := by
    rw [mem_maxIndices]
    refine ⟨hi, ?_⟩
    rw [List.getD_eq_getElem?_getD, List.getElem?_eq_getElem hi, Option.getD_some, hq]
  rw [hnil] at hin
  exact absurd hin (List.not_mem_nil i)

theorem qvals_ne_nil (Q : QTable) (s : PyState) : qvals Q s ≠ [] := by
  simp [qvals, actionsList]

/-- The index drawn by greedy selection is one of the maximizer indices. -/
theorem predictIdx_mem (Q : QTable) (s : PyState) (c : Nat) :
    predictIdx Q s c ∈ maxIndices (qvals Q s) := by
  unfold predictIdx
  have hne : maxIndices (qvals Q s) ≠ [] :=
    maxIndices_ne_nil _ (qvals_ne_nil Q s)
  have hlen : 0 < (maxIndices (qvals Q s)).length := List.length_pos.mpr hne
  have hmod : c % (maxIndices (qvals Q s)).length < (maxIndices (qvals Q s)).length :=
    Nat.mod_lt _ hlen
  rw [List.getD_eq_getElem?_getD, List.getElem?_eq_getElem hmod, Option.getD_some]
  exact List.getElem_mem _

/-- Positional correspondence between `qvals` and `actionsList`. -/
theorem qvals_getD (Q : QTable) (s : PyState) (i : Nat)
    (h : i < actionsList.length) :
    (qvals Q s).getD i 0 =
      qGetD Q (normalizeState s, actionsList.getD i Action.MOVE_LEFT) := by
  simp only [actionsList, List.length_cons, List.length_nil] at h
  interval_cases i <;> rfl

/-- Greedy selection only ever returns an action whose estimate is the
maximum of `estimates(state)`. -/
theorem predict_estimate (Q : QTable) (s : PyState) (c : Nat) :
    qGetD Q (normalizeState s, predict Q s c) = listMax (qvals Q s) := by
  have hmem := predictIdx_mem Q s c
  rw [mem_maxIndices] at hmem
  obtain ⟨hlt, heq⟩ := hmem
  have hlen : (qvals Q s).length = actionsList.length := by simp [qvals]
  unfold predict
  rw [← heq]
  exact (qvals_getD Q s _ (hlen ▸ hlt)).symm

theorem maxIndicesQB : maxIndices (qvals QB sB) = [3] := by decide

theorem maxIndicesQC : maxIndices (qvals QC sB) = [2, 3] := by decide

/-- Scenario B: the unique maximizer `DOWN` is returned for every draw. -/
theorem predictQB (c : Nat) : predict QB sB c = Action.MOVE_DOWN := by
  simp [predict, predictIdx, maxIndicesQB, Nat.mod_one, actionsList]

/-- Scenario C: only `UP` or `DOWN` can be returned. -/
theorem predictQC (c : Nat) :
    predict QC sB c = Action.MOVE_UP ∨ predict QC sB c = Action.MOVE_DOWN := by
  rcases Nat.mod_two_eq_zero_or_one c with h | h
  · left; simp [predict, predictIdx, maxIndicesQC, h, actionsList]
  · right; simp [predict, predictIdx, maxIndicesQC, h, actionsList]

/-! Update-rule and episode-loop lemmas. -/

/-- The value stored by one inner-loop table transaction, read back through
`estimate`, is exactly the SARSA target built from the pre-update
estimates. -/
theorem sarsa_formula (Q : QTable) (s : PyState) (a : Action) (r : ℚ)
    (s' : PyState) (a' : Action) (discount learning_rate : ℚ) :
    qGetD (sarsaStep Q s a r s' a' discount learning_rate) (s, a) =
      qGetD Q (s, a) +
        learning_rate * (r + discount * qGetD Q (s', a') - qGetD Q (s, a)) := by
  unfold sarsaStep
  rw [qGetD_qSet_self, qGetD_ensureQ, qGetD_ensureQ]

/-- The episode loop only ever adds to the incoming reward accumulator: its
result on accumulator `c` is its result on accumulator 0, shifted by `c`. -/
theorem episodeLoop_cum (env : EnvModel)
    (discount learning_rate exploration_rate : ℚ) (o : Oracle) :
    ∀ (fuel : Nat) (s : PyState) (a : Action) (Q : QTable) (c : ℚ) (nu nc : Nat),
      episodeLoop env discount learning_rate exploration_rate o fuel s a Q c nu nc =
        (episodeLoop env discount learning_rate exploration_rate o fuel s a Q 0
            nu nc).map
          (fun out => (out.1, c + out.2.1, out.2.2)) := by
  intro fuel
  induction fuel with
  | zero => intro s a Q c nu nc; rfl
  | succ n ih =>
    intro s a Q c nu nc
    simp only [episodeLoop]
    split
    · simp [Except.map]
    · rw [ih, ih _ _ _ (0 + (env.aplica (s, a)).2.1)]
      cases episodeLoop env discount learning_rate exploration_rate o n
          (env.aplica (s, a)).1
          (chooseAction Q exploration_rate (env.aplica (s, a)).1 o nu nc).1
          (sarsaStep Q s a (env.aplica (s, a)).2.1 (env.aplica (s, a)).1
            (chooseAction Q exploration_rate (env.aplica (s, a)).1 o nu nc).1
            discount learning_rate)
          0
          (chooseAction Q exploration_rate (env.aplica (s, a)).1 o nu nc).2.1
          (chooseAction Q exploration_rate (env.aplica (s, a)).1 o nu nc).2.2 with
      | error e => simp [Except.map]
      | ok out => simp [Except.map]; ring

/-- `runEpisode` with accumulator `cum` is `runEpisode` with accumulator 0,
shifted by `cum`. -/
theorem runEpisode_cum (env : EnvModel)
    (discount learning_rate exploration_rate : ℚ) (o : Oracle) (fuel : Nat)
    (start : Nat × Nat) (Q : QTable) (cum : ℚ) (nu nc : Nat) :
    runEpisode env discount learning_rate exploration_rate o fuel start Q cum
        nu nc =
      (runEpisode env discount learning_rate exploration_rate o fuel start Q 0
          nu nc).map
        (fun out => (out.1, cum + out.2.1, out.2.2)) := by
  unfold runEpisode
  exact episodeLoop_cum env discount learning_rate exploration_rate o fuel _ _ _
    cum _ _

/-- `trainEpisode` as an equation on the episode result. -/
theorem trainEpisode_eq (env : EnvModel) (discount learning_rate : ℚ)
    (o : Oracle) (fuel : Nat) (ts : TrainState) :
    trainEpisode env discount learning_rate o fuel ts =
      (runEpisode env discount learning_rate ts.exploration_rate o fuel ts.xy
          ts.Q ts.cum ts.nu ts.nc).map
        (fun out =>
          { Q := out.1, cum := out.2.1, history := ts.history ++ [out.2.1],
            exploration_rate := decay ts.exploration_rate,
            xy := cursorNext ts.xy, nu := out.2.2.2.1, nc := out.2.2.2.2 }) := by
  unfold trainEpisode
  cases hE : runEpisode env discount learning_rate ts.exploration_rate o fuel
      ts.xy ts.Q ts.cum ts.nu ts.nc with
  | error e => rfl
  | ok out => obtain ⟨Q1, c1, st1, nu1, nc1⟩ := out; rfl

/-- `train` as an equation on the loop result. -/
theorem train_eq (env : EnvModel) (o : Oracle) (fuel : Nat) (Q0 : QTable)
    (discount exploration_rate learning_rate : ℚ) (episodes : Nat) (b : Bool) :
    train env o fuel Q0 discount exploration_rate learning_rate episodes b =
      (trainGo env discount learning_rate o fuel episodes
          (initialState Q0 exploration_rate)).bind
        (fun ts =>
          if episodes = 0 then Except.error TrainError.unboundLocal
          else Except.ok (ts.history, [], episodes)) := by
  unfold train
  cases trainGo env discount learning_rate o fuel episodes
      (initialState Q0 exploration_rate) with
  | error e => rfl
  | ok ts => rfl

/-- The decay floor. -/
theorem min_le_decay (e : ℚ) : min_exploration_rate ≤ decay e :=
  le_max_left _ _

/-- Decay never increases a rate that is at or above the floor. -/
theorem decay_le_self (e : ℚ) (he : min_exploration_rate ≤ e) : decay e ≤ e := by
  apply max_le he
  have h0 : (0 : ℚ) ≤ e := le_trans (by norm_num [min_exploration_rate]) he
  have h1 : decay_rate ≤ 1 := by norm_num [decay_rate]
  calc e * decay_rate ≤ e * 1 := mul_le_mul_of_nonneg_left h1 h0
    _ = e := mul_one e

/-! Claim theorems. -/

unseal Rat.mul Rat.add Rat.inv Rat.sub in
/-- C1: every Value-Table update of a training step stores
`old + learning_rate * (reward + discount * estimate(next_state, next_action)
- old)` at `(state, action)`; and in Scenario D's run (one-step episode whose
first transition is WIN with reward 1, discount 9/10, learning rate 1/2,
zero-initialized table), the resulting estimate at the visited `(state,
action)` is 1/2. -/
theorem C1_td_update :
    (∀ (Q : QTable) (s : PyState) (a : Action) (r : ℚ) (s' : PyState)
        (a' : Action) (discount learning_rate : ℚ),
        qGetD (sarsaStep Q s a r s' a' discount learning_rate) (s, a) =
          qGetD Q (s, a) +
            learning_rate *
              (r + discount * qGetD Q (s', a') - qGetD Q (s, a))) ∧
    (trainGo winEnv (9/10) (1/2) zeroOracle 4 1 (initialState [] 0)).map
        (fun ts => qGetD ts.Q (PyState.tup [0, 0], Action.MOVE_LEFT)) =
      Except.ok (1/2) :=
  ⟨sarsa_formula, by rfl⟩

/-- C2: greedy selection only returns actions whose estimate equals the
maximum of `estimates(state)`; Scenario B's unique maximizer `DOWN` is
returned for every random draw, and in Scenario C's tie only `UP` or `DOWN`
can be returned, each for some draw. -/
theorem C2_greedy_max :
    (∀ (Q : QTable) (s : PyState) (c : Nat),
        qGetD Q (normalizeState s, predict Q s c) = listMax (qvals Q s)) ∧
    (∀ c : Nat, predict QB sB c = Action.MOVE_DOWN) ∧
    (∀ c : Nat,
        predict QC sB c = Action.MOVE_UP ∨ predict QC sB c = Action.MOVE_DOWN) ∧
    (∃ c : Nat, predict QC sB c = Action.MOVE_UP) ∧
    (∃ c : Nat, predict QC sB c = Action.MOVE_DOWN) :=
  ⟨predict_estimate, predictQB, predictQC, ⟨0, by decide⟩, ⟨1, by decide⟩⟩

/-- C6: `train` with `episodes = 0` does not return an empty history with a
zero episode count; it fails with an unbound-local error, because the `for`
loop never binds `episode` and the final log statement reads it. -/
theorem C6_zero_episodes :
    train winEnv zeroOracle 4 [] (9/10) (1/10) (1/2) 0 false =
      Except.error TrainError.unboundLocal := rfl

/-- C7: `actua` returns the raw maximizer index, not the action obtained by
mapping that index through the canonical action ordering; `predict` does map
it. -/
theorem C7_actua_raw_index :
    actua [] sB 0 = PyVal.idx 0 ∧
    (∀ a : Action, actua [] sB 0 ≠ PyVal.act a) ∧
    predictVal [] sB 0 = PyVal.act Action.MOVE_LEFT :=
  ⟨rfl, fun a => by cases a <;> decide, rfl⟩

unseal Rat.mul Rat.add Rat.inv Rat.sub in
/-- C9: `train` performs no hyperparameter validation: with discount 5,
exploration rate -1 and learning rate 2 (each outside [0, 1]) it silently
runs the requested episodes and returns a normal result. -/
theorem C9_no_validation :
    train winEnv zeroOracle 4 [] 5 (-1) 2 2 false =
      Except.ok ([1, 2], [], 2) ∧
    ¬((5 : ℚ) ≤ 1) ∧ ¬((0 : ℚ) ≤ -1) ∧ ¬((2 : ℚ) ≤ 1) :=
  ⟨by rfl, by norm_num, by norm_num, by norm_num⟩

/-- C10: the estimate query first flattens an ndarray state into the tuple of
its elements and keys the table with that tuple, so `q` (and `predict`) give
identical results for an ndarray and for the tuple of its flattened elements,
while tuple and other hashable states are used unchanged. -/
theorem C10_ndarray_key :
    (∀ (Q : QTable) (rows : List (List Int)),
        qvals Q (PyState.ndarray rows) = qvals Q (PyState.tup rows.flatten)) ∧
    (∀ (Q : QTable) (rows : List (List Int)) (c : Nat),
        predict Q (PyState.ndarray rows) c = predict Q (PyState.tup rows.flatten) c) ∧
    (∀ rows : List (List Int),
        normalizeState (PyState.ndarray rows) = PyState.tup rows.flatten) ∧
    (∀ l : List Int, normalizeState (PyState.tup l) = PyState.tup l) ∧
    (∀ n : Int, normalizeState (PyState.intKey n) = PyState.intKey n) :=
  ⟨fun _ _ => rfl, fun _ _ _ => rfl, fun _ => rfl, fun _ => rfl, fun _ => rfl⟩

unseal Rat.mul Rat.add Rat.inv Rat.sub in
/-- C3 (counterexample): in a 2-episode run where each episode's own reward is
exactly 1 (every `winEnv` step yields reward 1 and terminates), the Training
History is `[1, 2]`: the second entry is the running total 2, not that
episode's own reward 1.  The middle conjunct recomputes episode 2 (same
table, cursor, draw counters and decayed rate as the actual run) from a zero
accumulator: its own reward is 1. -/
theorem C3_counterexample :
    train winEnv zeroOracle 4 [] (9/10) 0 (1/2) 2 false =
      Except.ok ([1, 2], [], 2) ∧
    (runEpisode winEnv (9/10) (1/2) tsD.exploration_rate zeroOracle 4 tsD.xy
        tsD.Q 0 tsD.nu tsD.nc).map (fun out => out.2.1) = Except.ok 1 ∧
    (2 : ℚ) ≠ 1 :=
  ⟨by rfl, by rfl, by norm_num⟩

/-- C3 (amended): each entry appended to the Training History is the running
cumulative reward over all episodes so far — the accumulator is initialised
once per `train` call and never reset — so a history entry is the previous
accumulator value plus the finishing episode's own reward. -/
theorem C3_amended_history (env : EnvModel) (discount learning_rate : ℚ)
    (o : Oracle) (fuel : Nat) (ts ts' : TrainState)
    (h : trainEpisode env discount learning_rate o fuel ts = Except.ok ts') :
    ts'.history = ts.history ++ [ts'.cum] ∧
    ∃ r : ℚ, ts'.cum = ts.cum + r ∧
      (runEpisode env discount learning_rate ts.exploration_rate o fuel ts.xy
          ts.Q 0 ts.nu ts.nc).map (fun out => out.2.1) = Except.ok r := by
  rw [trainEpisode_eq, runEpisode_cum] at h
  cases hr : runEpisode env discount learning_rate ts.exploration_rate o fuel
      ts.xy ts.Q 0 ts.nu ts.nc with
  | error e => rw [hr] at h; simp [Except.map] at h
  | ok out =>
    obtain ⟨Q1, c1, st1, nu1, nc1⟩ := out
    rw [hr] at h
    simp only [Except.map, Except.ok.injEq] at h
    subst h
    exact ⟨rfl, c1, rfl, rfl⟩

unseal Rat.mul Rat.add Rat.inv Rat.sub in
/-- C3 (witness): the amended statement at episode 1 of the Scenario D run. -/
theorem C3_amended_history_witness :
    tsD.history = (initialState [] 0).history ++ [tsD.cum] ∧
    ∃ r : ℚ, tsD.cum = (initialState [] 0).cum + r ∧
      (runEpisode winEnv (9/10) (1/2) (initialState [] 0).exploration_rate
          zeroOracle 4 (initialState [] 0).xy (initialState [] 0).Q 0
          (initialState [] 0).nu (initialState [] 0).nc).map
        (fun out => out.2.1) = Except.ok r :=
  C3_amended_history winEnv (9/10) (1/2) zeroOracle 4 (initialState [] 0) tsD
    (by rfl)

unseal Rat.mul Rat.add Rat.inv Rat.sub in
/-- C4 (counterexample): a completed 1-episode run returns a second component
with no entries, not one terminal-status entry per completed episode. -/
theorem C4_counterexample :
    train winEnv zeroOracle 4 [] (9/10) 0 (1/2) 1 false =
      Except.ok ([1], [], 1) ∧
    ([] : List Status).length ≠ 1 :=
  ⟨by rfl, by decide⟩

/-- C4 (amended): the second result of `train` is a status list that is never
appended to — it is always empty — and the third result always equals the
requested episode count. -/
theorem C4_amended_statuses (env : EnvModel) (o : Oracle) (fuel : Nat)
    (Q0 : QTable) (discount exploration_rate learning_rate : ℚ)
    (episodes : Nat) (b : Bool) (h : List ℚ) (w : List Status) (n : Nat)
    (hok : train env o fuel Q0 discount exploration_rate learning_rate
      episodes b = Except.ok (h, w, n)) :
    w = [] ∧ n = episodes := by
  rw [train_eq] at hok
  cases hE : trainGo env discount learning_rate o fuel episodes
      (initialState Q0 exploration_rate) with
  | error e => rw [hE] at hok; simp [Except.bind] at hok
  | ok ts =>
    rw [hE] at hok
    simp only [Except.bind] at hok
    split at hok
    · simp at hok
    · simp only [Except.ok.injEq, Prod.mk.injEq] at hok
      exact ⟨hok.2.1.symm, hok.2.2.symm⟩

unseal Rat.mul Rat.add Rat.inv Rat.sub in
/-- C4 (witness): the amended statement on a completed 1-episode run. -/
theorem C4_amended_statuses_witness : ([] : List Status) = [] ∧ 1 = 1 :=
  C4_amended_statuses winEnv zeroOracle 4 [] (9/10) 0 (1/2) 1 false [1] [] 1
    (by rfl)

unseal Rat.mul Rat.add Rat.inv Rat.sub in
/-- C5 (counterexample): with initial exploration rate 1/200 the very first
decay raises the rate to 1/100, so for this initial rate the sequence of
exploration-rate values across episodes is not monotonically non-increasing
(and its first value lies below 0.01). -/
theorem C5_counterexample :
    (trainEpisode winEnv (9/10) (1/2) zeroOracle 4
        (initialState [] (1/200))).map (fun ts => ts.exploration_rate) =
      Except.ok (1/100) ∧
    ¬((1 : ℚ)/100 ≤ 1/200) :=
  ⟨by rfl, by norm_num⟩

/-- C5 (amended): after every completed episode the exploration rate is set
to `max(0.01, rate * 0.9975)`; every post-decay value is at least 0.01, decay
never increases a rate already at or above 0.01, and the post-decay sequence
is monotonically non-increasing — so full monotonicity from the initial value
holds exactly when the initial rate is at least 0.01. -/
theorem C5_amended_decay :
    (∀ (env : EnvModel) (discount learning_rate : ℚ) (o : Oracle) (fuel : Nat)
        (ts : TrainState),
        (trainEpisode env discount learning_rate o fuel ts).map
            TrainState.exploration_rate =
          (trainEpisode env discount learning_rate o fuel ts).map
            (fun _ => decay ts.exploration_rate)) ∧
    (∀ e : ℚ, min_exploration_rate ≤ decay e) ∧
    (∀ e : ℚ, min_exploration_rate ≤ e → decay e ≤ e) ∧
    (∀ e : ℚ, decay (decay e) ≤ decay e) := by
  refine ⟨?_, min_le_decay, decay_le_self,
    fun e => decay_le_self (decay e) (min_le_decay e)⟩
  intro env discount learning_rate o fuel ts
  rw [trainEpisode_eq]
  cases runEpisode env discount learning_rate ts.exploration_rate o fuel ts.xy
      ts.Q ts.cum ts.nu ts.nc with
  | error e => rfl
  | ok out => rfl

unseal Rat.mul Rat.add Rat.inv Rat.sub in
/-- C5 (witness): the amended statement at concrete rates. -/
theorem C5_amended_decay_witness :
    ((trainEpisode winEnv (9/10) (1/2) zeroOracle 4 (initialState [] 1)).map
        TrainState.exploration_rate =
      (trainEpisode winEnv (9/10) (1/2) zeroOracle 4 (initialState [] 1)).map
        (fun _ => decay (initialState [] 1).exploration_rate)) ∧
    min_exploration_rate ≤ decay (1/2) ∧
    decay 1 ≤ 1 ∧
    decay (decay (1/2)) ≤ decay (1/2) :=
  ⟨C5_amended_decay.1 winEnv (9/10) (1/2) zeroOracle 4 (initialState [] 1),
   C5_amended_decay.2.1 (1/2),
   C5_amended_decay.2.2.1 1 (by norm_num [min_exploration_rate]),
   C5_amended_decay.2.2.2 (1/2)⟩

unseal Rat.mul Rat.add Rat.inv Rat.sub in
/-- C8: `stop_at_convergence` is ignored.  In an environment where every
greedy rollout terminates in WIN immediately, a 10-episode run with the flag
set still runs and reports all 10 episodes; and `train` is extensionally
independent of the flag. -/
theorem C8_convergence_ignored :
    train winEnv zeroOracle 4 [] (9/10) (1/10) (1/2) 10 true =
      Except.ok ([1, 2, 3, 4, 5, 6, 7, 8, 9, 10], [], 10) ∧
    (∀ (env : EnvModel) (o : Oracle) (fuel : Nat) (Q0 : QTable)
        (discount exploration_rate learning_rate : ℚ) (episodes : Nat)
        (b b' : Bool),
        train env o fuel Q0 discount exploration_rate learning_rate episodes b =
          train env o fuel Q0 discount exploration_rate learning_rate episodes
            b') :=
  ⟨by rfl, fun _ _ _ _ _ _ _ _ _ _ => rfl⟩

end AgentQ
